import Mathlib

/-! Shallow embedding of the `barter-data-rs` market-data subscription core:
the subscription model and validator (`src/subscription/mod.rs`), the
Binance channel mapping (`src/exchange/binance/channel.rs`), the candle
model (`src/subscription/candle.rs`) and the Binance spot candle decoder
and transformer (`src/exchange/binance/spot/candles.rs`).

Modelling conventions:
* Rust `String` / `&'static str` become Lean `String`.
* `DateTime<Utc>` values are produced in this code only by
  `de_u64_epoch_ms_as_datetime_utc`; they are modelled by their epoch
  offset in milliseconds as a `Nat`.
* `f64` fields are produced only by parsing decimal strings from the wire
  (`barter_integration::de::de_str`); they are modelled as exact rationals
  `ℚ`, with the parse of a plain decimal literal being exact.
* `u64` fields are modelled as `Nat` together with the `< 2 ^ 64` range
  check performed by the integer deserializer.
* fallible deserialization returns `Option`.
-/

set_option autoImplicit false

namespace BarterData

/-- Instrument class, from `barter_integration::model::InstrumentKind`
(external crate; the two variants used by this repository). -/
inductive InstrumentKind where
  | Spot
  | FuturePerpetual
deriving DecidableEq, Repr

/-- Modelled from the spec: the `Display` string of an `InstrumentKind`
(`other.to_string()` in `validate`), "the unsupported instrument-class
string"; the external crate renders `spot` / `future_perpetual`. -/
def instrumentKindDisplay : InstrumentKind → String
  | .Spot => "spot"
  | .FuturePerpetual => "future_perpetual"

/-- Instrument, from `barter_integration::model::Instrument` (external
crate): base symbol, quote symbol, and instrument class (spec section 3). -/
structure Instrument where
  base : String
  quote : String
  kind : InstrumentKind
deriving DecidableEq, Repr

/-- SubscriptionId, from `barter_integration::model::SubscriptionId`
(external crate): an opaque newtype over a string key. -/
structure SubscriptionId where
  val : String
deriving DecidableEq, Repr

/-- Error type, from `barter_integration::error::SocketError` (external
crate); only the variants raised by the code under `src/` are modelled. -/
inductive SocketError where
  | Unsupported (entity : String) (item : String)
  | Unidentifiable (id : SubscriptionId)
deriving DecidableEq, Repr

/-- Subscription, from `src/subscription/mod.rs` lines 36-43: the triple of
exchange tag, `Instrument`, and `SubKind` value, with derived structural
equality. -/
structure Subscription (Exchange Kind : Type) where
  exchange : Exchange
  instrument : Instrument
  kind : Kind
deriving DecidableEq

/-- Interval, from `src/subscription/mod.rs` lines 46-80: the closed
enumeration of canonical candle granularities. -/
inductive Interval where
  | Minute1
  | Minute3
  | Minute5
  | Minute15
  | Minute30
  | Hour1
  | Hour2
  | Hour4
  | Hour6
  | Hour8
  | Hour12
  | Day1
  | Day3
  | Week1
  | Month1
  | Month3
deriving DecidableEq, Repr, Fintype

/-- Candles `SubKind`, from `src/subscription/candle.rs` line 10:
`pub struct Candles(pub Interval)`. -/
structure Candles where
  interval : Interval
deriving DecidableEq, Repr

/-- Normalised candle, from `src/subscription/candle.rs` lines 18-26.
`close_time : DateTime<Utc>` is epoch milliseconds; the `f64` fields are
exact rationals (see the file header). `open` is a Lean keyword, hence
the field is written `open_`. -/
structure Candle where
  close_time : Nat
  open_ : ℚ
  high : ℚ
  low : ℚ
  close : ℚ
  volume : ℚ
  trade_count : Nat
deriving DecidableEq, Repr

/-- BinanceChannel, from `src/exchange/binance/channel.rs` line 22:
`pub struct BinanceChannel(pub &'static str)`. -/
structure BinanceChannel where
  val : String
deriving DecidableEq, Repr

/-- CANDLES constant, from `src/exchange/binance/channel.rs` line 53:
`pub const CANDLES: Self = Self("@kline_");`. -/
def BinanceChannel.CANDLES : BinanceChannel := ⟨"@kline_"⟩

/-- Candle channel mapping, from `src/exchange/binance/channel.rs` lines
62-83: the body of `Identifier<BinanceChannel> for
Subscription<Binance<Server>, Candles>::id`, which matches on
`self.kind.0 : Interval`. -/
def binanceKlineToken : Interval → BinanceChannel
  | .Minute1 => ⟨"@kline_1m"⟩
  | .Minute3 => ⟨"@kline_3m"⟩
  | .Minute5 => ⟨"@kline_5m"⟩
  | .Minute15 => ⟨"@kline_15m"⟩
  | .Minute30 => ⟨"@kline_30m"⟩
  | .Hour1 => ⟨"@kline_1h"⟩
  | .Hour2 => ⟨"@kline_2h"⟩
  | .Hour4 => ⟨"@kline_4h"⟩
  | .Hour6 => ⟨"@kline_6h"⟩
  | .Hour8 => ⟨"@kline_8h"⟩
  | .Hour12 => ⟨"@kline_12h"⟩
  | .Day1 => ⟨"@kline_1d"⟩
  | .Day3 => ⟨"@kline_3d"⟩
  | .Week1 => ⟨"@kline_1w"⟩
  | .Month1 => ⟨"@kline_1M"⟩
  | .Month3 => ⟨"@kline_3M"⟩

/-- Channel identifier of a Binance candle subscription, from
`src/exchange/binance/channel.rs` lines 62-83 (`Identifier<BinanceChannel>`
for `Subscription<Binance<Server>, Candles>`): the interval match above
applied to `self.kind.0`. -/
def binanceCandlesChannelId {Exchange : Type} (sub : Subscription Exchange Candles) :
    BinanceChannel :=
  binanceKlineToken sub.kind.interval

/-- Modelled from the spec: `ExchangeSub::from((channel, market)).id()`
lives in `src/exchange/mod.rs`, which is not among the provided sources.
Per spec section 3 ("an opaque string key formed by concatenating the
exchange's wire channel token and the exchange's own market symbol
spelling, e.g. `"@kline_1m|BNBBTC"`") and the in-source doc comment on
`de_trade_subscription_id` (`"s"` eg/ `"BTCUSDT"` becomes eg/
`"@trade|BTCUSDT"`), the id is `channel ++ "|" ++ market`. -/
def exchangeSubId (channel : BinanceChannel) (market : String) : SubscriptionId :=
  ⟨channel.val ++ "|" ++ market⟩

/-- Receive-time id derivation, from `src/exchange/binance/spot/candles.rs`
lines 123-129 (`de_trade_subscription_id`): the deserialized `"s"` string
is mapped through `ExchangeSub::from((BinanceChannel::CANDLES, market)).id()`. -/
def deTradeSubscriptionId (market : String) : SubscriptionId :=
  exchangeSubId BinanceChannel.CANDLES market

/-- Modelled from the spec: the setup-time `SubscriptionId` of a candle
subscription (spec section 4.2, third function) combines the channel token
from the `Identifier<BinanceChannel>` mapping with the exchange-native
market symbol; the combining function itself is `ExchangeSub::id` as above. -/
def setupCandleSubscriptionId {Exchange : Type} (sub : Subscription Exchange Candles)
    (market : String) : SubscriptionId :=
  exchangeSubId (binanceCandlesChannelId sub) market

/-- JSON value, modelling `serde_json` input after lexical parsing. Only
the shapes occurring in the wire payloads handled by the code under `src/`
are needed: strings, integers, booleans and objects. -/
inductive Json where
  | str (s : String) : Json
  | num (n : Int) : Json
  | bool (b : Bool) : Json
  | obj (fields : List (String × Json)) : Json

/-- Field lookup in a JSON object, first occurrence wins. -/
def jsonLookup (fields : List (String × Json)) (key : String) : Option Json :=
  match fields with
  | [] => none
  | (k, v) :: rest => if k = key then some v else jsonLookup rest key

/-- Serde field resolution for a struct field carrying
`#[serde(alias = "...")]`: the Rust field name and the alias are both
accepted. -/
def getAliased (fields : List (String × Json)) (name alt : String) : Option Json :=
  match jsonLookup fields name with
  | some v => some v
  | none => jsonLookup fields alt

/-- Deserialize a JSON value as a string (`<&str as Deserialize>` /
`String`). -/
def Json.asStr : Json → Option String
  | .str s => some s
  | _ => none

/-- Deserialize a JSON value as a `u64`: a non-negative integer below
`2 ^ 64`. -/
def Json.asU64 : Json → Option Nat
  | .num n => if 0 ≤ n ∧ n < 2 ^ 64 then some n.toNat else none
  | _ => none

/-- Epoch-millisecond timestamp deserializer, modelling
`barter_integration::de::de_u64_epoch_ms_as_datetime_utc` (external
crate): a `u64` read as milliseconds since the epoch. -/
def deEpochMs (j : Json) : Option Nat :=
  j.asU64

/-- Accumulate a decimal digit sequence into a natural number; fails on
any non-digit character. -/
def parseDigitsAux : List Char → Nat → Option Nat
  | [], acc => some acc
  | c :: rest, acc =>
    if c.isDigit then parseDigitsAux rest (acc * 10 + (c.toNat - 48)) else none

/-- Parse the unsigned part of a decimal literal `digits [. digits]` into
an exact rational. At least one digit must be present. -/
def parseDecimalCore (cs : List Char) : Option ℚ :=
  let intPart := cs.takeWhile (fun c => c ≠ '.')
  match cs.dropWhile (fun c => c ≠ '.') with
  | [] =>
    if intPart.isEmpty then none
    else (parseDigitsAux intPart 0).map fun n => (n : ℚ)
  | _ :: frac =>
    if intPart.isEmpty && frac.isEmpty then none
    else
      match parseDigitsAux intPart 0, parseDigitsAux frac 0 with
      | some ip, some fp => some ((ip : ℚ) + (fp : ℚ) / ((10 : ℚ) ^ frac.length))
      | _, _ => none

/-- Decimal-string number deserializer, modelling
`barter_integration::de::de_str` into `f64` (external crate): the wire
string is parsed as a decimal literal with optional sign. The `f64` is
modelled as the exact rational value of the literal (exponent forms do not
occur in the payloads this repository decodes). -/
def deStr (j : Json) : Option ℚ :=
  match j with
  | .str s =>
    match s.toList with
    | '-' :: rest => (parseDecimalCore rest).map fun q => -q
    | '+' :: rest => parseDecimalCore rest
    | cs => parseDecimalCore cs
  | _ => none

/-- Inner kline record, from `src/exchange/binance/spot/candles.rs` lines
67-93 (`BinanceCandleInner`). `end` is a Lean keyword, hence the field is
written `end_`; timestamps are epoch milliseconds, `f64` fields exact
rationals. -/
structure BinanceCandleInner where
  start : Nat
  end_ : Nat
  interval : String
  open_ : ℚ
  close : ℚ
  high : ℚ
  low : ℚ
  volume : ℚ
  trades : Nat
deriving DecidableEq, Repr

/-- Binance candle wire record, from `src/exchange/binance/spot/candles.rs`
lines 54-65 (`BinanceCandle`). -/
structure BinanceCandle where
  subscription_id : SubscriptionId
  time : Nat
  candle : BinanceCandleInner
deriving DecidableEq, Repr

/-- Deserializer for `BinanceCandleInner`, following the serde derivation
of `src/exchange/binance/spot/candles.rs` lines 67-93: each field is read
under its Rust name or its `alias`, with the field-specific
`deserialize_with` functions; unknown keys are ignored. -/
def deBinanceCandleInner (j : Json) : Option BinanceCandleInner :=
  match j with
  | .obj fields =>
    match (getAliased fields "start" "t").bind deEpochMs with
    | none => none
    | some start =>
      match (getAliased fields "end" "T").bind deEpochMs with
      | none => none
      | some end_ =>
        match (getAliased fields "interval" "i").bind Json.asStr with
        | none => none
        | some interval =>
          match (getAliased fields "open" "o").bind deStr with
          | none => none
          | some open_ =>
            match (getAliased fields "close" "c").bind deStr with
            | none => none
            | some close =>
              match (getAliased fields "high" "h").bind deStr with
              | none => none
              | some high =>
                match (getAliased fields "low" "l").bind deStr with
                | none => none
                | some low =>
                  match (getAliased fields "volume" "v").bind deStr with
                  | none => none
                  | some volume =>
                    match (getAliased fields "trades" "n").bind Json.asU64 with
                    | none => none
                    | some trades =>
                      some { start, end_, interval, open_, close, high, low,
                             volume, trades }
  | _ => none

/-- Deserializer for `BinanceCandle`, following the serde derivation of
`src/exchange/binance/spot/candles.rs` lines 54-65: `subscription_id` is
read from `"s"` through `de_trade_subscription_id`, `time` from `"E"` as
epoch milliseconds, `candle` from `"k"`. -/
def deBinanceCandle (j : Json) : Option BinanceCandle :=
  match j with
  | .obj fields =>
    match (getAliased fields "subscription_id" "s").bind Json.asStr with
    | none => none
    | some market =>
      match (getAliased fields "time" "E").bind deEpochMs with
      | none => none
      | some time =>
        match (getAliased fields "candle" "k").bind deBinanceCandleInner with
        | none => none
        | some candle =>
          some { subscription_id := deTradeSubscriptionId market, time, candle }
  | _ => none

/-- Identifier impl, from `src/exchange/binance/spot/candles.rs` lines
95-99: `Identifier<Option<SubscriptionId>> for BinanceCandle` returns
`Some(self.subscription_id.clone())`. -/
def BinanceCandle.id (c : BinanceCandle) : Option SubscriptionId :=
  some c.subscription_id

/-- Modelled from the spec: `MarketEvent<T>` lives in `src/event.rs`,
which is not among the provided sources; spec section 3 lists its fields
as exchange identifier, `Instrument`, exchange-reported timestamp, local
receipt timestamp, and payload `T`, matching the field uses in
`src/exchange/binance/spot/candles.rs` lines 101-119. The `Exchange`
newtype is a string. -/
structure MarketEvent (T : Type) where
  exchange_time : Nat
  received_time : Nat
  exchange : String
  instrument : Instrument
  kind : T
deriving DecidableEq

/-- Normalisation of a decoded `BinanceCandle` into a `MarketEvent<Candle>`,
from `src/exchange/binance/spot/candles.rs` lines 101-119. `Utc::now()`,
the only impure input, is passed explicitly as `received_time`. -/
def binanceCandleMarketEvent (exchange_id : String) (instrument : Instrument)
    (trade : BinanceCandle) (received_time : Nat) : MarketEvent Candle :=
  { exchange_time := trade.time
    received_time := received_time
    exchange := exchange_id
    instrument := instrument
    kind :=
      { close_time := trade.candle.end_
        open_ := trade.candle.open_
        high := trade.candle.high
        low := trade.candle.low
        close := trade.candle.close
        volume := trade.candle.volume
        trade_count := trade.candle.trades } }

/-- MarketIter impl, from `src/exchange/binance/spot/candles.rs` lines
101-119: `From<(ExchangeId, Instrument, BinanceCandle)> for
MarketIter<Candle>` wraps the single event in `vec![Ok(..)]`. -/
def binanceCandleMarketIter (exchange_id : String) (instrument : Instrument)
    (trade : BinanceCandle) (received_time : Nat) :
    List (Except SocketError (MarketEvent Candle)) :=
  [Except.ok (binanceCandleMarketEvent exchange_id instrument trade received_time)]

/-- Modelled from the spec: `ExchangeId` and its capability methods live
in `src/exchange/mod.rs`, which is not among the provided sources; spec
section 3 describes it as an enumerated venue identifier carrying static
capability flags (`supports_spot`, `supports_futures`) and a wire name
(`as_str`). It is modelled abstractly as the capability record the
validator consumes. -/
structure ExchangeId where
  as_str : String
  supports_spot : Bool
  supports_futures : Bool

/-- Validator impl, from `src/subscription/mod.rs` lines 154-176
(`Validator for &Subscription<Exchange, Kind>::validate`): the guarded
match on `self.instrument.kind`, returning the subscription on success or
`SocketError::Unsupported` with the exchange name and the instrument-class
display string. -/
def validateSubscription {Exchange Kind : Type} (exchange : ExchangeId)
    (sub : Subscription Exchange Kind) :
    Except SocketError (Subscription Exchange Kind) :=
  match sub.instrument.kind with
  | .Spot =>
    if exchange.supports_spot then Except.ok sub
    else Except.error (.Unsupported exchange.as_str (instrumentKindDisplay .Spot))
  | .FuturePerpetual =>
    if exchange.supports_futures then Except.ok sub
    else Except.error
      (.Unsupported exchange.as_str (instrumentKindDisplay .FuturePerpetual))

/-- Insertion into the entry list of a hash map, overwrite-on-existing-key:
the model of `HashMap::insert` used by `collect`. -/
def insertEntry {T : Type} :
    List (SubscriptionId × T) → SubscriptionId → T → List (SubscriptionId × T)
  | [], k, v => [(k, v)]
  | (k', v') :: rest, k, v =>
    if k' = k then (k, v) :: rest else (k', v') :: insertEntry rest k v

/-- Lookup in the entry list of a hash map: the model of `HashMap::get`. -/
def getEntry {T : Type} : List (SubscriptionId × T) → SubscriptionId → Option T
  | [], _ => none
  | (k', v') :: rest, k => if k' = k then some v' else getEntry rest k

/-- Map newtype, from `src/subscription/mod.rs` line 194:
`pub struct Map<T>(pub HashMap<SubscriptionId, T>)`; the hash map is
modelled by its entry list with unique keys. -/
structure Map (T : Type) where
  entries : List (SubscriptionId × T)
deriving DecidableEq

/-- FromIterator impl, from `src/subscription/mod.rs` lines 196-203:
`iter.into_iter().collect::<HashMap<..>>()`, i.e. a left fold of inserts
into an empty map (later occurrences of a key overwrite earlier ones). -/
def Map.fromList {T : Type} (pairs : List (SubscriptionId × T)) : Map T :=
  ⟨pairs.foldl (fun acc kv => insertEntry acc kv.1 kv.2) []⟩

/-- Map lookup: `self.0.get(id)`. -/
def Map.get {T : Type} (m : Map T) (id : SubscriptionId) : Option T :=
  getEntry m.entries id

/-- Map::find, from `src/subscription/mod.rs` lines 205-216:
`self.0.get(id).cloned().ok_or_else(|| SocketError::Unidentifiable(id.clone()))`. -/
def Map.find {T : Type} (m : Map T) (id : SubscriptionId) : Except SocketError T :=
  match m.get id with
  | some v => Except.ok v
  | none => Except.error (.Unidentifiable id)

deriving instance DecidableEq for Except

/-- Last binding of a key in a pair list: the value the map "was built
with" for that key, since later inserts overwrite earlier ones
(specification-side observation, not an embedding of source code). -/
def lastBinding {T : Type} : List (SubscriptionId × T) → SubscriptionId → Option T
  | [], _ => none
  | (k, v) :: rest, id =>
    match lastBinding rest id with
    | some w => some w
    | none => if k = id then some v else none

/-- Observation function on a candle payload: the top-level symbol field
(`subscription_id` / `"s"`) as read by the serde derivation, used to state
what the decoded `subscription_id` depends on. -/
def binanceCandlePayloadSymbol (j : Json) : Option String :=
  match j with
  | .obj fields => (getAliased fields "subscription_id" "s").bind Json.asStr
  | _ => none

/-- Wire payload of the candle end-to-end scenario (spec section 8), as
parsed JSON. -/
def candleScenarioPayload : Json := .obj [
  ("e", .str "kline"), ("E", .num 123456789), ("s", .str "BNBBTC"),
  ("k", .obj [
    ("t", .num 123400000), ("T", .num 123460000), ("s", .str "BNBBTC"),
    ("i", .str "1m"), ("o", .str "0.0010"), ("c", .str "0.0020"),
    ("h", .str "0.0025"), ("l", .str "0.0015"), ("v", .str "1000"),
    ("n", .num 100)])]

/-- Valid candle payload with interval `"1m"`, for exercising interval
independence of the derived id. -/
def klinePayloadInterval1m : Json := .obj [
  ("e", .str "kline"), ("E", .num 1000), ("s", .str "ETHUSDT"),
  ("k", .obj [
    ("t", .num 900), ("T", .num 960), ("s", .str "ETHUSDT"),
    ("i", .str "1m"), ("o", .str "1.5"), ("c", .str "2.5"),
    ("h", .str "3.5"), ("l", .str "0.5"), ("v", .str "7"),
    ("n", .num 3)])]

/-- The same candle payload as `klinePayloadInterval1m` except that the
nested interval field `"i"` is `"5m"`. -/
def klinePayloadInterval5m : Json := .obj [
  ("e", .str "kline"), ("E", .num 1000), ("s", .str "ETHUSDT"),
  ("k", .obj [
    ("t", .num 900), ("T", .num 960), ("s", .str "ETHUSDT"),
    ("i", .str "5m"), ("o", .str "1.5"), ("c", .str "2.5"),
    ("h", .str "3.5"), ("l", .str "0.5"), ("v", .str "7"),
    ("n", .num 3)])]

/-! Helper lemmas about the hash-map model. -/

/-- Lookup after overwrite-insert: the inserted key now reads the new
value, every other key is unchanged. -/
theorem getEntry_insertEntry {T : Type} (l : List (SubscriptionId × T))
    (k : SubscriptionId) (v : T) (id : SubscriptionId) :
    getEntry (insertEntry l k v) id = if k = id then some v else getEntry l id := by
  induction l with
  | nil => simp [insertEntry, getEntry]
  | cons hd tl ih =>
    obtain ⟨k', v'⟩ := hd
    simp only [insertEntry]
    by_cases hk : k' = k
    · subst hk
      by_cases hid : k' = id <;> simp [getEntry, hid]
    · by_cases hid : k' = id <;> by_cases hkid : k = id <;>
        simp_all [getEntry]

/-- Folding overwrite-inserts over an accumulator: the result reads the
last binding of the inserted pairs, falling back to the accumulator. -/
theorem getEntry_foldl_insertEntry {T : Type} (pairs : List (SubscriptionId × T))
    (acc : List (SubscriptionId × T)) (id : SubscriptionId) :
    getEntry (pairs.foldl (fun a kv => insertEntry a kv.1 kv.2) acc) id
      = (lastBinding pairs id).or (getEntry acc id) := by
  induction pairs generalizing acc with
  | nil => simp [lastBinding, Option.none_or]
  | cons hd tl ih =>
    obtain ⟨k, v⟩ := hd
    simp only [List.foldl_cons]
    rw [ih, getEntry_insertEntry]
    cases h2 : lastBinding tl id <;> by_cases h : k = id <;>
      simp [lastBinding, h, h2, Option.or]

/-- Lookup in a collected map is the last binding of the source pairs. -/
theorem fromList_get {T : Type} (pairs : List (SubscriptionId × T))
    (id : SubscriptionId) :
    (Map.fromList pairs).get id = lastBinding pairs id := by
  show getEntry (pairs.foldl (fun a kv => insertEntry a kv.1 kv.2) []) id = _
  rw [getEntry_foldl_insertEntry]
  simp [getEntry, Option.or_none]

/-- Key membership after overwrite-insert. -/
theorem mem_keys_insertEntry {T : Type} (l : List (SubscriptionId × T))
    (k : SubscriptionId) (v : T) (a : SubscriptionId) :
    a ∈ (insertEntry l k v).map Prod.fst ↔ a = k ∨ a ∈ l.map Prod.fst := by
  induction l with
  | nil => simp [insertEntry]
  | cons hd tl ih =>
    obtain ⟨k', v'⟩ := hd
    simp only [insertEntry]
    by_cases hk : k' = k
    · subst hk; simp; try tauto
    · simp [hk, ih]; tauto

/-- Overwrite-insert preserves key uniqueness. -/
theorem keys_nodup_insertEntry {T : Type} (l : List (SubscriptionId × T))
    (k : SubscriptionId) (v : T) (h : (l.map Prod.fst).Nodup) :
    ((insertEntry l k v).map Prod.fst).Nodup := by
  induction l with
  | nil => simp [insertEntry]
  | cons hd tl ih =>
    obtain ⟨k', v'⟩ := hd
    simp only [List.map_cons, List.nodup_cons] at h
    obtain ⟨hnot, htl⟩ := h
    simp only [insertEntry]
    by_cases hk : k' = k
    · subst hk
      rw [if_pos rfl]
      simp only [List.map_cons, List.nodup_cons]
      exact ⟨hnot, htl⟩
    · simp only [if_neg hk, List.map_cons, List.nodup_cons]
      refine ⟨fun hmem => ?_, ih htl⟩
      rcases (mem_keys_insertEntry tl k v k').1 hmem with rfl | hin
      · exact hk rfl
      · exact hnot hin

/-- Every collected map has pairwise-distinct keys. -/
theorem fromList_keys_nodup {T : Type} (pairs : List (SubscriptionId × T)) :
    ((Map.fromList pairs).entries.map Prod.fst).Nodup := by
  suffices h : ∀ acc : List (SubscriptionId × T), (acc.map Prod.fst).Nodup →
      ((pairs.foldl (fun a kv => insertEntry a kv.1 kv.2) acc).map Prod.fst).Nodup by
    exact h [] (by simp)
  induction pairs with
  | nil => intro acc h; simpa using h
  | cons hd tl ih =>
    intro acc h
    simp only [List.foldl_cons]
    exact ih _ (keys_nodup_insertEntry _ _ _ h)

/-- With pairwise-distinct keys, a key that reads a value occupies exactly
one entry. -/
theorem countP_eq_one_of_getEntry {T : Type} (l : List (SubscriptionId × T))
    (k : SubscriptionId) (v : T) (hnd : (l.map Prod.fst).Nodup)
    (h : getEntry l k = some v) :
    (l.countP fun kv => kv.1 = k) = 1 := by
  induction l with
  | nil => simp [getEntry] at h
  | cons hd tl ih =>
    obtain ⟨k', v'⟩ := hd
    simp only [List.map_cons, List.nodup_cons] at hnd
    obtain ⟨hnot, htl⟩ := hnd
    simp only [getEntry] at h
    by_cases hk : k' = k
    · subst hk
      rw [List.countP_cons]
      have hz : (tl.countP fun kv => kv.1 = k') = 0 := by
        rw [List.countP_eq_zero]
        intro kv hkv
        simp only [decide_eq_true_eq]
        intro heq
        exact hnot (heq ▸ List.mem_map_of_mem Prod.fst hkv)
      simp [hz]
    · rw [if_neg hk] at h
      rw [List.countP_cons]
      simp only [decide_eq_true_eq, if_neg hk]
      simpa using ih htl h

/-! Helper lemma about the candle decoder. -/

/-- Shape of a successful candle decode: the `subscription_id` is derived
by `de_trade_subscription_id` from the top-level symbol field alone. -/
theorem deBinanceCandle_subscription_id (j : Json) (c : BinanceCandle)
    (h : deBinanceCandle j = some c) :
    ∃ m, binanceCandlePayloadSymbol j = some m ∧
      c.subscription_id = deTradeSubscriptionId m := by
  cases j with
  | str s => exact absurd h (by simp [deBinanceCandle])
  | num n => exact absurd h (by simp [deBinanceCandle])
  | bool b => exact absurd h (by simp [deBinanceCandle])
  | obj fields =>
    simp only [deBinanceCandle] at h
    rcases hm : (getAliased fields "subscription_id" "s").bind Json.asStr with _ | m
    · rw [hm] at h; exact absurd h (by simp)
    · rw [hm] at h
      rcases ht : (getAliased fields "time" "E").bind deEpochMs with _ | time
      · rw [ht] at h; exact absurd h (by simp)
      · rw [ht] at h
        rcases hc : (getAliased fields "candle" "k").bind deBinanceCandleInner
          with _ | cd
        · rw [hc] at h; exact absurd h (by simp)
        · rw [hc] at h
          simp only [Option.some.injEq] at h
          refine ⟨m, by simp [binanceCandlePayloadSymbol, hm], ?_⟩
          rw [← h]

/-! Claim theorems. -/

/-- C4: the Binance candle channel-token mapping is total over the closed
`Interval` enumeration (it is a Lean function out of `Interval`, whose 16
constructors the match covers exhaustively) and injective: distinct
intervals receive distinct `BinanceChannel` tokens. -/
theorem binanceKlineToken_total_injective :
    Fintype.card Interval = 16 ∧
    ∀ i j : Interval, binanceKlineToken i = binanceKlineToken j → i = j := by
  constructor
  · rfl
  · decide

/-- Witness for C4 at a concrete pair of intervals. -/
theorem binanceKlineToken_total_injective_witness :
    Interval.Minute1 = Interval.Minute1 :=
  binanceKlineToken_total_injective.2 Interval.Minute1 Interval.Minute1 rfl

/-- C7: two `Subscription` values are equal exactly when their exchange
tag, `Instrument` and `SubKind` value are respectively equal (derived
structural equality of `src/subscription/mod.rs` lines 36-43). -/
theorem subscription_eq_iff_fields {Exchange Kind : Type}
    (a b : Subscription Exchange Kind) :
    a = b ↔ a.exchange = b.exchange ∧ a.instrument = b.instrument ∧
      a.kind = b.kind := by
  cases a; cases b; simp [Subscription.mk.injEq]

/-- C10: the `Identifier<Option<SubscriptionId>>` impl for `BinanceCandle`
always returns `Some` of the decoded `subscription_id`, never `None`, so a
decoded candle message always proceeds to reverse lookup. -/
theorem binanceCandle_id_always_some (c : BinanceCandle) :
    BinanceCandle.id c = some c.subscription_id ∧ BinanceCandle.id c ≠ none :=
  ⟨rfl, by simp [BinanceCandle.id]⟩

/-- C1 (counter-evaluation): for `Interval::Minute1` and the symbol
`"BNBBTC"`, the setup-time `SubscriptionId` uses the interval-specific
token `"@kline_1m"`, while `de_trade_subscription_id` uses the bare
`BinanceChannel::CANDLES` prefix `"@kline_"`, so the two ids are not
equal, contradicting the round-trip property (and the repository's own
test at `src/exchange/binance/spot/candles.rs` line 179, which expects
`"@kline_1m|BNBBTC"` from the decoder). -/
theorem kline_setup_receive_id_mismatch :
    setupCandleSubscriptionId
        (⟨(), ⟨"bnb", "btc", .Spot⟩, ⟨Interval.Minute1⟩⟩ : Subscription Unit Candles)
        "BNBBTC" = ⟨"@kline_1m|BNBBTC"⟩ ∧
    deTradeSubscriptionId "BNBBTC" = ⟨"@kline_|BNBBTC"⟩ ∧
    setupCandleSubscriptionId
        (⟨(), ⟨"bnb", "btc", .Spot⟩, ⟨Interval.Minute1⟩⟩ : Subscription Unit Candles)
        "BNBBTC" ≠ deTradeSubscriptionId "BNBBTC" := by
  refine ⟨rfl, rfl, ?_⟩
  decide

/-- C3: `validate` succeeds with the subscription unchanged exactly when
the exchange's capability flags support the instrument kind
(`Spot` iff `supports_spot`, `FuturePerpetual` iff `supports_futures`),
and otherwise fails with `Unsupported` naming the exchange and the
instrument-class string; being a pure function of its arguments, it has
no side effects beyond the returned result. -/
theorem validate_ok_iff_supported {Exchange Kind : Type} (ex : ExchangeId)
    (sub : Subscription Exchange Kind) :
    (validateSubscription ex sub = Except.ok sub ↔
      (sub.instrument.kind = .Spot ∧ ex.supports_spot = true) ∨
      (sub.instrument.kind = .FuturePerpetual ∧ ex.supports_futures = true)) ∧
    (validateSubscription ex sub
        = Except.error (.Unsupported ex.as_str
            (instrumentKindDisplay sub.instrument.kind)) ↔
      ¬ ((sub.instrument.kind = .Spot ∧ ex.supports_spot = true) ∨
         (sub.instrument.kind = .FuturePerpetual ∧ ex.supports_futures = true))) := by
  rcases hk : sub.instrument.kind with _ | _ <;>
    rcases hs : ex.supports_spot with _ | _ <;>
      rcases hf : ex.supports_futures with _ | _ <;>
        simp_all [validateSubscription]

/-- C5: `Map::find` returns exactly the value the map was built with for a
present key (the last binding, since collecting overwrites duplicates) and
`SocketError::Unidentifiable(id)` for an absent key; in particular for the
single-entry map `"present" → (base, quote, Spot)`. -/
theorem map_find_present_or_unidentifiable
    (pairs : List (SubscriptionId × Instrument)) (id : SubscriptionId) :
    (∀ v, lastBinding pairs id = some v →
        (Map.fromList pairs).find id = Except.ok v) ∧
    (lastBinding pairs id = none →
        (Map.fromList pairs).find id = Except.error (.Unidentifiable id)) ∧
    (Map.fromList [(⟨"present"⟩, (⟨"base", "quote", .Spot⟩ : Instrument))]).find
        ⟨"present"⟩ = Except.ok ⟨"base", "quote", .Spot⟩ ∧
    (Map.fromList [(⟨"present"⟩, (⟨"base", "quote", .Spot⟩ : Instrument))]).find
        ⟨"not present"⟩ = Except.error (.Unidentifiable ⟨"not present"⟩) := by
  refine ⟨?_, ?_, by decide, by decide⟩
  · intro v hv
    simp [Map.find, fromList_get, hv]
  · intro hv
    simp [Map.find, fromList_get, hv]

/-- Witness for C5: the populated single-entry map resolves its present
key to the instrument it was built with. -/
theorem map_find_present_or_unidentifiable_witness :
    (Map.fromList [(⟨"present"⟩, (⟨"base", "quote", .Spot⟩ : Instrument))]).find
        ⟨"present"⟩ = Except.ok ⟨"base", "quote", .Spot⟩ :=
  (map_find_present_or_unidentifiable
      [(⟨"present"⟩, ⟨"base", "quote", .Spot⟩)] ⟨"present"⟩).1
    ⟨"base", "quote", .Spot⟩ (by decide)

/-- C9: collecting a pair list with a duplicated `SubscriptionId` into a
`Map` always succeeds (the collect is a total function with no error
channel) and silently keeps exactly one entry for the duplicated key,
bound to the value of its last occurrence. -/
theorem fromList_duplicate_key_last_wins {T : Type}
    (pairs : List (SubscriptionId × T)) (k : SubscriptionId) (v : T)
    (h : lastBinding pairs k = some v) :
    (Map.fromList pairs).get k = some v ∧
    ((Map.fromList pairs).entries.countP fun kv => kv.1 = k) = 1 := by
  have hg : (Map.fromList pairs).get k = some v := by
    rw [fromList_get]; exact h
  exact ⟨hg, countP_eq_one_of_getEntry _ _ v (fromList_keys_nodup pairs) hg⟩

/-- Witness for C9 on a concrete list with a duplicated key: the second
occurrence wins and the key occupies a single entry. -/
theorem fromList_duplicate_key_last_wins_witness :
    (Map.fromList [(⟨"dup"⟩, 1), (⟨"dup"⟩, (2 : Nat))]).get ⟨"dup"⟩ = some 2 ∧
    ((Map.fromList [(⟨"dup"⟩, 1), (⟨"dup"⟩, (2 : Nat))]).entries.countP
        fun kv => kv.1 = ⟨"dup"⟩) = 1 :=
  fromList_duplicate_key_last_wins [(⟨"dup"⟩, 1), (⟨"dup"⟩, 2)] ⟨"dup"⟩ 2
    (by decide)

/-- C6: the candle decode and transform pipeline is deterministic: the
decoder is a pure function, so the same payload (malformed or valid)
yields the same outcome on every run, and two transforms of the same
decoded candle at different local clock readings agree on every
`MarketEvent` field except the locally-stamped `received_time` (the only
field `Utc::now()` flows into), including the length of the emitted
`MarketIter`. -/
theorem candle_pipeline_deterministic (j : Json) (exid : String)
    (instr : Instrument) (c : BinanceCandle) (t1 t2 : Nat) :
    deBinanceCandle j = deBinanceCandle j ∧
    (binanceCandleMarketEvent exid instr c t1).exchange_time
      = (binanceCandleMarketEvent exid instr c t2).exchange_time ∧
    (binanceCandleMarketEvent exid instr c t1).exchange
      = (binanceCandleMarketEvent exid instr c t2).exchange ∧
    (binanceCandleMarketEvent exid instr c t1).instrument
      = (binanceCandleMarketEvent exid instr c t2).instrument ∧
    (binanceCandleMarketEvent exid instr c t1).kind
      = (binanceCandleMarketEvent exid instr c t2).kind ∧
    (binanceCandleMarketIter exid instr c t1).length
      = (binanceCandleMarketIter exid instr c t2).length :=
  ⟨rfl, rfl, rfl, rfl, rfl, rfl⟩

/-- C2 (counter-evaluation): decoding the spec's candle wire payload
yields the normalized candle the claim states (close time 123460000 ms,
OHLC 0.0010/0.0025/0.0015/0.0020, volume 1000, 100 trades), but the
decoded `SubscriptionId` is `"@kline_|BNBBTC"` (bare `CANDLES` prefix),
not the claimed `"@kline_1m|BNBBTC"` expected by the repository's own
test at `src/exchange/binance/spot/candles.rs` line 179. -/
theorem candle_scenario_eval :
    ∃ c : BinanceCandle,
      deBinanceCandle candleScenarioPayload = some c ∧
      c.subscription_id = ⟨"@kline_|BNBBTC"⟩ ∧
      (⟨"@kline_|BNBBTC"⟩ : SubscriptionId) ≠ ⟨"@kline_1m|BNBBTC"⟩ ∧
      ∀ exid instr now,
        (binanceCandleMarketEvent exid instr c now).kind =
          { close_time := 123460000, open_ := 1/1000, high := 1/400,
            low := 3/2000, close := 1/500, volume := 1000,
            trade_count := 100 } := by
  refine ⟨{ subscription_id := ⟨"@kline_|BNBBTC"⟩, time := 123456789,
            candle := { start := 123400000, end_ := 123460000, interval := "1m",
                        open_ := 1/1000, close := 1/500, high := 1/400,
                        low := 3/2000, volume := 1000, trades := 100 } },
          ?_, rfl, by decide, fun exid instr now => rfl⟩
  simp +decide [candleScenarioPayload, deBinanceCandle, deBinanceCandleInner,
    getAliased, jsonLookup, Json.asStr, Json.asU64, deEpochMs, deStr,
    parseDecimalCore, parseDigitsAux, deTradeSubscriptionId, exchangeSubId,
    BinanceChannel.CANDLES, Option.bind, List.takeWhile, List.dropWhile]
  norm_num

/-- C8: the decoded `subscription_id` of a Binance candle message depends
only on the top-level symbol field: any two successfully decoded payloads
with the same top-level symbol (in particular, payloads differing only in
the nested interval field `"i"`) derive identical subscription ids. -/
theorem kline_id_depends_only_on_symbol (j1 j2 : Json)
    (h1 : (deBinanceCandle j1).isSome = true)
    (h2 : (deBinanceCandle j2).isSome = true)
    (hsym : binanceCandlePayloadSymbol j1 = binanceCandlePayloadSymbol j2) :
    (deBinanceCandle j1).map BinanceCandle.subscription_id
      = (deBinanceCandle j2).map BinanceCandle.subscription_id := by
  obtain ⟨c1, hc1⟩ := Option.isSome_iff_exists.1 h1
  obtain ⟨c2, hc2⟩ := Option.isSome_iff_exists.1 h2
  obtain ⟨m1, hm1, hid1⟩ := deBinanceCandle_subscription_id j1 c1 hc1
  obtain ⟨m2, hm2, hid2⟩ := deBinanceCandle_subscription_id j2 c2 hc2
  have hm : m1 = m2 := by
    rw [hm1, hm2] at hsym
    injection hsym
  rw [hc1, hc2]
  simp only [Option.map_some']
  rw [hid1, hid2, hm]

/-- Witness for C8: the two concrete payloads differing only in the nested
interval field decode to the same subscription id. -/
theorem kline_id_depends_only_on_symbol_witness :
    (deBinanceCandle klinePayloadInterval1m).map BinanceCandle.subscription_id
      = (deBinanceCandle klinePayloadInterval5m).map BinanceCandle.subscription_id :=
  kline_id_depends_only_on_symbol klinePayloadInterval1m klinePayloadInterval5m
    (by decide) (by decide) (by decide)

end BarterData
